import Mathlib

/-
Shallow embedding of the riscv-compiler repository (src/bin_num.py,
src/riscv_inst.py, src/instructions.py, src/riscv.py, src/riscv_compiler.py).

Python strings of binary digits are modelled as `List Char`; Python ints as
`Int`; Python dicts as association lists (insertion order preserved, as in
CPython); functions that can raise are modelled in `Except (List Char)` with
the raised message as the error value.
-/

namespace RiscvComp

/-- Python `value & (2**32 - 1)` on an arbitrary int: the nonnegative
residue mod 2^32 (Python `&` with a nonnegative mask agrees with `emod`). -/
def toNat32 (v : Int) : Nat := (v % (2 ^ 32 : Int)).toNat

/-- The `w`-character binary rendering of `n % 2^w`, most significant bit
first, as produced by Python `f"{n:0wb}"` for `n < 2^w`. -/
def natBits : Nat → Nat → List Char
  | _, 0 => []
  | n, w + 1 => natBits (n / 2) w ++ [if n % 2 = 1 then '1' else '0']

/-- Numeric value of one binary digit character. -/
def bitVal (c : Char) : Nat := if c = '1' then 1 else 0

/-- Python `int(s, 2)` on a string of binary digit characters. -/
def binVal (s : List Char) : Nat := s.foldl (fun a c => 2 * a + bitVal c) 0

/-- Lowercase hexadecimal digit character, as in Python `x` formatting. -/
def hexDigit (n : Nat) : Char :=
  if n < 10 then Char.ofNat (48 + n) else Char.ofNat (87 + n)

/-- The `w`-character lowercase hex rendering of `n % 16^w`, most significant
digit first, as produced by Python `f"{n:0wx}"` for `n < 16^w`. -/
def natHex : Nat → Nat → List Char
  | _, 0 => []
  | n, w + 1 => natHex (n / 16) w ++ [hexDigit (n % 16)]

/-- `BinNum.value_strb` (src/bin_num.py line 29):
`f"{(self.value & 2**32-1):032b}"`. -/
def value_strb (v : Int) : List Char := natBits (toNat32 v) 32

/-- `BinNum.value_strh` (src/bin_num.py line 36):
`f"{(self.value & 2**32-1):08x}"`. -/
def value_strh (v : Int) : List Char := natHex (toNat32 v) 8

/-- `BinNum.get_bits` (src/bin_num.py line 42): the Python slice
`self.value_strb[(32-1)-top : 32-bottom]`, i.e. the substring of the 32-bit
binary rendering holding bits `top` down to `bottom`.  All call sites in the
repository use `top ≤ 31`, where the truncated `Nat` subtraction below agrees
with the Python index arithmetic. -/
def get_bits (v : Int) (top bottom : Nat) : List Char :=
  ((value_strb v).drop (31 - top)).take ((32 - bottom) - (31 - top))

/-- A Python runtime value flowing through the compiler: an int or a string
(`Compiler.convert_param` returns `int or str`). -/
abbrev PyVal := Int ⊕ List Char

/-- `Inst` (src/riscv_inst.py lines 145-186): an instruction definition made
of a type tag (1-6 for R,I,S,B,U,J), opcode, funct3 and funct7. -/
structure Inst where
  type : Nat
  op : Int
  funct3 : Int
  funct7 : Int
deriving DecidableEq, Repr

/-- The validation performed by `Inst.__init__` (src/riscv_inst.py lines
166-186): type in 1..6, op in 0..0x7F, funct3 in 0..7, funct7 in 0..0x7F. -/
def Inst.WF (i : Inst) : Prop :=
  1 ≤ i.type ∧ i.type ≤ 6 ∧ 0 ≤ i.op ∧ i.op ≤ 0x7F ∧
    0 ≤ i.funct3 ∧ i.funct3 ≤ 0x7 ∧ 0 ≤ i.funct7 ∧ i.funct7 ≤ 0x7F

instance (i : Inst) : Decidable i.WF := by unfold Inst.WF; infer_instance

/-- The `MACHINE_CODE_FORMAT` lambdas of `RISCV_TYPE_FORMATS`
(src/riscv_inst.py lines 22-142): per type, the `"".join` of `get_bits`
slices of the fields, in source order. -/
def Inst.mc (i : Inst) (rd rs1 rs2 imm : Int) : List Char :=
  match i.type with
  | 1 => get_bits i.funct7 6 0 ++ get_bits rs2 4 0 ++ get_bits rs1 4 0 ++
      get_bits i.funct3 2 0 ++ get_bits rd 4 0 ++ get_bits i.op 6 0
  | 2 => get_bits imm 11 0 ++ get_bits rs1 4 0 ++ get_bits i.funct3 2 0 ++
      get_bits rd 4 0 ++ get_bits i.op 6 0
  | 3 => get_bits imm 11 5 ++ get_bits rs2 4 0 ++ get_bits rs1 4 0 ++
      get_bits i.funct3 2 0 ++ get_bits imm 4 0 ++ get_bits i.op 6 0
  | 4 => get_bits imm 12 12 ++ get_bits imm 10 5 ++ get_bits rs2 4 0 ++
      get_bits rs1 4 0 ++ get_bits i.funct3 2 0 ++ get_bits imm 4 1 ++
      get_bits imm 11 11 ++ get_bits i.op 6 0
  | 5 => get_bits imm 31 12 ++ get_bits rd 4 0 ++ get_bits i.op 6 0
  | 6 => get_bits imm 20 20 ++ get_bits imm 10 1 ++ get_bits imm 11 11 ++
      get_bits imm 19 12 ++ get_bits rd 4 0 ++ get_bits i.op 6 0
  | _ => []

/-- `Inst.compile` (src/riscv_inst.py lines 246-289).  Arguments are the
dynamically typed values coming out of `Compiler.convert_param`; a string
argument hits a Python `TypeError` at the first comparison against an int,
mirrored here field by field in source order.  On success the joined bit
string is parsed back with `int(inst_str, 2)`. -/
def Inst.compile (i : Inst) (rd rs1 rs2 imm : PyVal) : Except (List Char) Int :=
  match rd with
  | .inr _ => .error ("TypeError".toList)
  | .inl rd =>
    if rd < 0 ∨ rd > 0x1F then .error ("Invalid rd value".toList) else
    match rs1 with
    | .inr _ => .error ("TypeError".toList)
    | .inl rs1 =>
      if rs1 < 0 ∨ rs1 > 0x1F then .error ("Invalid rs1 value".toList) else
      match rs2 with
      | .inr _ => .error ("TypeError".toList)
      | .inl rs2 =>
        if rs2 < 0 ∨ rs2 > 0x1F then .error ("Invalid rs2 value".toList) else
        match imm with
        | .inr _ => .error ("TypeError".toList)
        | .inl imm =>
          if imm < -0x80000000 ∨ imm > 0x7FFFFFFF then
            .error ("Invalid imm value".toList)
          else .ok ((binVal (i.mc rd rs1 rs2 imm) : Nat) : Int)

/-- Modelled from the spec: `imm[i:j]`, "the bits of the immediate's 32-bit
two's-complement representation", as an unsigned field value. -/
def specSlice (imm : Int) (i j : Nat) : Nat :=
  toNat32 imm / 2 ^ j % 2 ^ (i + 1 - j)

/-- Modelled from the spec (section 4.2): the word whose bits, most
significant first, are the prescribed concatenation per format, written
arithmetically with each field shifted to its position.  R =
funct7(7)+rs2(5)+rs1(5)+funct3(3)+rd(5)+op(7), and so on for I,S,B,U,J. -/
def spec_word (i : Inst) (rd rs1 rs2 imm : Int) : Nat :=
  match i.type with
  | 1 => i.funct7.toNat * 2 ^ 25 + rs2.toNat * 2 ^ 20 + rs1.toNat * 2 ^ 15 +
      i.funct3.toNat * 2 ^ 12 + rd.toNat * 2 ^ 7 + i.op.toNat
  | 2 => specSlice imm 11 0 * 2 ^ 20 + rs1.toNat * 2 ^ 15 +
      i.funct3.toNat * 2 ^ 12 + rd.toNat * 2 ^ 7 + i.op.toNat
  | 3 => specSlice imm 11 5 * 2 ^ 25 + rs2.toNat * 2 ^ 20 +
      rs1.toNat * 2 ^ 15 + i.funct3.toNat * 2 ^ 12 +
      specSlice imm 4 0 * 2 ^ 7 + i.op.toNat
  | 4 => specSlice imm 12 12 * 2 ^ 31 + specSlice imm 10 5 * 2 ^ 25 +
      rs2.toNat * 2 ^ 20 + rs1.toNat * 2 ^ 15 + i.funct3.toNat * 2 ^ 12 +
      specSlice imm 4 1 * 2 ^ 8 + specSlice imm 11 11 * 2 ^ 7 + i.op.toNat
  | 5 => specSlice imm 31 12 * 2 ^ 12 + rd.toNat * 2 ^ 7 + i.op.toNat
  | 6 => specSlice imm 20 20 * 2 ^ 31 + specSlice imm 10 1 * 2 ^ 21 +
      specSlice imm 11 11 * 2 ^ 20 + specSlice imm 19 12 * 2 ^ 12 +
      rd.toNat * 2 ^ 7 + i.op.toNat
  | _ => 0

/-- `insts` (src/instructions.py lines 12-51): the RV32I base-instruction
catalog, in source order. -/
def insts : List (List Char × Inst) :=
  [("lb".toList, ⟨2, 3, 0, 0⟩),
   ("lh".toList, ⟨2, 3, 1, 0⟩),
   ("lw".toList, ⟨2, 3, 2, 0⟩),
   ("lbu".toList, ⟨2, 3, 4, 0⟩),
   ("lhu".toList, ⟨2, 3, 5, 0⟩),
   ("addi".toList, ⟨2, 19, 0, 0⟩),
   ("slli".toList, ⟨2, 19, 1, 0⟩),
   ("slti".toList, ⟨2, 19, 2, 0⟩),
   ("sltiu".toList, ⟨2, 19, 3, 0⟩),
   ("xori".toList, ⟨2, 19, 4, 0⟩),
   ("srli".toList, ⟨2, 19, 5, 0⟩),
   ("srai".toList, ⟨2, 19, 5, 32⟩),
   ("ori".toList, ⟨2, 19, 6, 0⟩),
   ("andi".toList, ⟨2, 19, 7, 0⟩),
   ("auipc".toList, ⟨5, 23, 0, 0⟩),
   ("sb".toList, ⟨3, 35, 0, 0⟩),
   ("sh".toList, ⟨3, 35, 1, 0⟩),
   ("sw".toList, ⟨3, 35, 2, 0⟩),
   ("add".toList, ⟨1, 51, 0, 0⟩),
   ("sub".toList, ⟨1, 51, 0, 32⟩),
   ("sll".toList, ⟨1, 51, 1, 0⟩),
   ("slt".toList, ⟨1, 51, 2, 0⟩),
   ("sltu".toList, ⟨1, 51, 3, 0⟩),
   ("xor".toList, ⟨1, 51, 4, 0⟩),
   ("srl".toList, ⟨1, 51, 5, 0⟩),
   ("sra".toList, ⟨1, 51, 5, 32⟩),
   ("or".toList, ⟨1, 51, 6, 0⟩),
   ("and".toList, ⟨1, 51, 7, 0⟩),
   ("lui".toList, ⟨5, 55, 0, 0⟩),
   ("beq".toList, ⟨4, 99, 0, 0⟩),
   ("bne".toList, ⟨4, 99, 1, 0⟩),
   ("blt".toList, ⟨4, 99, 4, 0⟩),
   ("bge".toList, ⟨4, 99, 5, 0⟩),
   ("bltu".toList, ⟨4, 99, 6, 0⟩),
   ("bgeu".toList, ⟨4, 99, 7, 0⟩),
   ("jalr".toList, ⟨2, 103, 0, 0⟩),
   ("jal".toList, ⟨6, 111, 0, 0⟩)]

/-- `pinsts` (src/instructions.py lines 53-79): the pseudo-instruction
expansion table, mnemonic to template string.  `Compiler.compile_line` only
ever tests key membership; the templates are never used. -/
def pinsts : List (List Char × List Char) :=
  [("nop".toList, "addi x0, x0, 0".toList),
   ("li".toList, "addi {0}, x0, {1}".toList),
   ("mv".toList, "addi {0}, {1}, 0".toList),
   ("not".toList, "xori {0}, {1}, -1".toList),
   ("neg".toList, "sub {0}, x0, {1}".toList),
   ("seqz".toList, "sltiu {0}, {1}, 1".toList),
   ("snez".toList, "sltu {0}, x0, {1}".toList),
   ("sltz".toList, "slt {0}, {1}, x0".toList),
   ("sgtz".toList, "slt {0}, x0, {1}".toList),
   ("beqz".toList, "beq {0}, x0, {1}".toList),
   ("bnez".toList, "bne {0}, x0, {1}".toList),
   ("blez".toList, "bge x0, {0}, {1}".toList),
   ("bgez".toList, "bge {0}, x0, {1}".toList),
   ("bltz".toList, "blt {0}, x0, {1}".toList),
   ("bgtz".toList, "blt x0, {0}, {1}".toList),
   ("ble".toList, "bge {1}, {0}, {2}".toList),
   ("bgt".toList, "blt {1}, {0}, {2}".toList),
   ("bleu".toList, "bgeu {1}, {0}, {2}".toList),
   ("bgtu".toList, "bltu {1}, {0}, {2}".toList),
   ("j".toList, "jal x0, {0}".toList),
   ("jal".toList, "jal ra, {0}".toList),
   ("jr".toList, "jalr x0, {0}, 0".toList),
   ("jalr".toList, "jalr ra, {0}, 0".toList),
   ("ret".toList, "jalr x0, ra, 0".toList)]

/-- `RISCV_REGISTERS` (src/riscv.py lines 30-64), imported by the compiler
as `registers.regs`: register alias to canonical index. -/
def regs : List (List Char × Int) :=
  [("zero".toList, 0), ("ra".toList, 1), ("sp".toList, 2), ("gp".toList, 3),
   ("tp".toList, 4), ("t0".toList, 5), ("t1".toList, 6), ("t2".toList, 7),
   ("s0".toList, 8), ("fp".toList, 8), ("s1".toList, 9), ("a0".toList, 10),
   ("a1".toList, 11), ("a2".toList, 12), ("a3".toList, 13), ("a4".toList, 14),
   ("a5".toList, 15), ("a6".toList, 16), ("a7".toList, 17), ("s2".toList, 18),
   ("s3".toList, 19), ("s4".toList, 20), ("s5".toList, 21), ("s6".toList, 22),
   ("s7".toList, 23), ("s8".toList, 24), ("s9".toList, 25), ("s10".toList, 26),
   ("s11".toList, 27), ("t3".toList, 28), ("t4".toList, 29),
   ("t5".toList, 30), ("t6".toList, 31)]

deriving instance DecidableEq for Except

/-- Modelled from the spec: "an immediate that fits the format's field" -
the signed range of the immediate field per format (12 bits for I/S, 13 for
B whose field holds bits 12:1, 21 for J, the full 32-bit range where the
field takes the whole upper word or there is no field). -/
def fieldFits (t : Nat) (imm : Int) : Prop :=
  match t with
  | 2 => -2048 ≤ imm ∧ imm ≤ 2047
  | 3 => -2048 ≤ imm ∧ imm ≤ 2047
  | 4 => -4096 ≤ imm ∧ imm ≤ 4095
  | 6 => -1048576 ≤ imm ∧ imm ≤ 1048575
  | _ => -2147483648 ≤ imm ∧ imm ≤ 2147483647

/-- Modelled from the spec: slicing the encoded word `w` at the bit ranges
the format assigns to each populated operand recovers the operand (for
registers) and the immediate field values (the slices of the immediate's
two's-complement representation). -/
def decode_fields (i : Inst) (rd rs1 rs2 imm w : Int) : Prop :=
  match i.type with
  | 1 => binVal (get_bits w 11 7) = rd.toNat ∧
      binVal (get_bits w 19 15) = rs1.toNat ∧
      binVal (get_bits w 24 20) = rs2.toNat
  | 2 => binVal (get_bits w 11 7) = rd.toNat ∧
      binVal (get_bits w 19 15) = rs1.toNat ∧
      binVal (get_bits w 31 20) = specSlice imm 11 0
  | 3 => binVal (get_bits w 19 15) = rs1.toNat ∧
      binVal (get_bits w 24 20) = rs2.toNat ∧
      binVal (get_bits w 31 25) = specSlice imm 11 5 ∧
      binVal (get_bits w 11 7) = specSlice imm 4 0
  | 4 => binVal (get_bits w 19 15) = rs1.toNat ∧
      binVal (get_bits w 24 20) = rs2.toNat ∧
      binVal (get_bits w 31 31) = specSlice imm 12 12 ∧
      binVal (get_bits w 30 25) = specSlice imm 10 5 ∧
      binVal (get_bits w 11 8) = specSlice imm 4 1 ∧
      binVal (get_bits w 7 7) = specSlice imm 11 11
  | 5 => binVal (get_bits w 11 7) = rd.toNat ∧
      binVal (get_bits w 31 12) = specSlice imm 31 12
  | 6 => binVal (get_bits w 11 7) = rd.toNat ∧
      binVal (get_bits w 31 31) = specSlice imm 20 20 ∧
      binVal (get_bits w 30 21) = specSlice imm 10 1 ∧
      binVal (get_bits w 20 20) = specSlice imm 11 11 ∧
      binVal (get_bits w 19 12) = specSlice imm 19 12
  | _ => True

/-- One step of `pySplit`: prepend character `c` to an already split tail
(`c` equal to the separator opens a fresh piece, any other character is
consed onto the first piece). -/
def pySplitStep (sep c : Char) (r : List (List Char)) : List (List Char) :=
  match r with
  | [] => []
  | h :: t => if c = sep then [] :: h :: t else (c :: h) :: t

/-- Python `str.split(sep)` for a one-character separator: splits at every
occurrence, keeping empty pieces; the result is never the empty list. -/
def pySplit (sep : Char) : List Char → List (List Char)
  | [] => [[]]
  | c :: rest => pySplitStep sep c (pySplit sep rest)

/-- Python `str.strip()`: remove leading and trailing whitespace. -/
def pyStrip (s : List Char) : List Char :=
  ((s.dropWhile Char.isWhitespace).reverse.dropWhile Char.isWhitespace).reverse

/-- Python `int(s)` on a string of decimal digits. -/
def parseDigits (s : List Char) : Nat :=
  s.foldl (fun a c => 10 * a + (c.toNat - 48)) 0

/-- Decimal rendering of a natural number (Python `str`/f-string formatting),
with explicit fuel so that it reduces definitionally; `n + 1` digits always
suffice. -/
def natDecAux : Nat → Nat → List Char
  | 0, _ => []
  | fuel + 1, n =>
    if n < 10 then [Char.ofNat (48 + n)]
    else natDecAux fuel (n / 10) ++ [Char.ofNat (48 + n % 10)]

/-- Decimal rendering of a natural number, most significant digit first. -/
def natDec (n : Nat) : List Char := natDecAux (n + 1) n

/-- `Compiler.get_line_params` (src/riscv_compiler.py lines 18-35): strip the
line, cut at `#`, split the mnemonic off at the first space, re-join and
de-space the remaining words, split operands on commas, and if the last
operand contains `(` replace it by the register inside the parentheses and
append the offset in front of it as a new final operand. -/
def get_line_params (line : List Char) : List Char × List (List Char) :=
  let line1 := pyStrip line
  let line2 := (pySplit '#' line1).headI
  let parts := pySplit ' ' line2
  let inst := parts.headI
  let params0 := parts.tail
  let params1 := pySplit ',' ((params0.flatten).filter (fun c => decide (c ≠ ' ')))
  let lastP := params1.getLastD []
  if '(' ∈ lastP then
    let offset := pySplit '(' lastP
    (inst, (params1.dropLast ++
      [(offset.getD 1 []).filter (fun c => decide (c ≠ ')'))]) ++ [offset.headI])
  else (inst, params1)

/-- `Compiler.convert_param` (src/riscv_compiler.py lines 37-61) on a raw
token: register alias lookup, then `x<digits>` with range check, then an
unsigned decimal immediate, else a label which must end in a colon.  A raised
`ValueError`/`IndexError` is the error message. -/
def convert_token (p : List Char) : Except (List Char) PyVal :=
  match regs.lookup p with
  | some n => .ok (.inl n)
  | none =>
    match p with
    | [] => .error ("IndexError".toList)
    | c :: rest =>
      if c = 'x' ∧ rest ≠ [] ∧ rest.all Char.isDigit then
        if ((parseDigits rest : Int) < 0 ∨ (parseDigits rest : Int) > 31) then
          .error (("Invalid parameter: ".toList) ++ p)
        else .ok (.inl (parseDigits rest))
      else if (c :: rest).all Char.isDigit then .ok (.inl (parseDigits (c :: rest)))
      else if (c :: rest).getLast (by simp) ≠ ':' then
        .error (("Invalid parameter: ".toList) ++ p)
      else .ok (.inr ((c :: rest).dropLast))

/-- `Compiler.convert_param` including its `None` case: unused operand slots
default to the integer 0. -/
def convert_param : Option (List Char) → Except (List Char) PyVal
  | none => .ok (.inl 0)
  | some p => convert_token p

/-- The operand-role dictionaries built by the `ASSEMBLY_FORMAT` lambdas of
`RISCV_TYPE_FORMATS` (src/riscv_inst.py): keys rd, rs1, rs2, imm in
dictionary order. -/
structure AsmParams where
  rd : Option (List Char)
  rs1 : Option (List Char)
  rs2 : Option (List Char)
  imm : Option (List Char)
deriving DecidableEq, Repr

/-- The `ASSEMBLY_FORMAT` lambdas of `RISCV_TYPE_FORMATS`
(src/riscv_inst.py lines 35-141): operand count check and role assignment
per type; `none` on a count mismatch. -/
def asmFormat (t : Nat) (ps : List (List Char)) : Option AsmParams :=
  match t with
  | 1 => match ps with
    | [a, b, c] => some ⟨some a, some b, some c, none⟩
    | _ => none
  | 2 => match ps with
    | [a, b, c] => some ⟨some a, some b, none, some c⟩
    | _ => none
  | 3 => match ps with
    | [a, b, c] => some ⟨none, some b, some a, some c⟩
    | _ => none
  | 4 => match ps with
    | [a, b, c] => some ⟨none, some a, some b, some c⟩
    | _ => none
  | 5 => match ps with
    | [a, b] => some ⟨some a, none, none, some b⟩
    | _ => none
  | 6 => match ps with
    | [a, b] => some ⟨some a, none, none, some b⟩
    | _ => none
  | _ => none

/-- The shared tail of `Compiler.compile_line` (src/riscv_compiler.py lines
99-116), reached both through the pseudo-instruction branch (whose body is
`pass`) and past the unknown-instruction check: the `insts[inst]` dict access
(a `KeyError` when absent), parameter-shape check, parameter conversion in
dictionary order (rd, rs1, rs2, imm), and the call to `Inst.compile`.  The
`params_dict["imm"] in labels` test has an empty body and is omitted. -/
def compileTail (inst : List Char) (params : List (List Char)) (pc : Nat) :
    Except (List Char) Int :=
  match insts.lookup inst with
  | none => .error (("KeyError: ".toList) ++ inst)
  | some i =>
    match asmFormat i.type params with
    | none => .error (("Invalid parameters in line ".toList) ++ natDec (pc / 4 + 1))
    | some pd => do
      let rd ← convert_param pd.rd
      let rs1 ← convert_param pd.rs1
      let rs2 ← convert_param pd.rs2
      let imm ← convert_param pd.imm
      i.compile rd rs1 rs2 imm

/-- `Compiler.compile_line` (src/riscv_compiler.py lines 79-116).  A mnemonic
in `pinsts` skips the unknown-instruction check (the pseudo-instruction
branch is the stub `pass`); otherwise an unknown mnemonic raises
`ValueError(f"Invalid instruction: {inst} in line {pc // 4 + 1}")`. -/
def compile_line (line : List Char) (pc : Nat) : Except (List Char) Int :=
  let ip := get_line_params line
  if (pinsts.lookup ip.1).isSome then compileTail ip.1 ip.2 pc
  else if (insts.lookup ip.1).isNone then
    .error (("Invalid instruction: ".toList) ++ ip.1 ++
      (" in line ".toList) ++ natDec (pc / 4 + 1))
  else compileTail ip.1 ip.2 pc

/-- `Compiler.compile` (src/riscv_compiler.py lines 63-77) on the content of
the assembly file: the very first statement after reading,
`lines = asm.readlines().split("\n")`, calls `.split` on a Python list and
raises `AttributeError` for every input, before any line is compiled. -/
def compile (_asmFile : List Char) : Except (List Char) (List Int) :=
  .error ("AttributeError: list object has no attribute split".toList)

theorem binVal_from (l : List Char) (a : Nat) :
    l.foldl (fun a c => 2 * a + bitVal c) a = a * 2 ^ l.length + binVal l := by
  induction l generalizing a with
  | nil => simp [binVal]
  | cons c t ih =>
    simp only [List.foldl_cons, List.length_cons, binVal]
    rw [ih, ih (2 * 0 + bitVal c)]
    ring

theorem binVal_append (a b : List Char) :
    binVal (a ++ b) = binVal a * 2 ^ b.length + binVal b := by
  unfold binVal
  rw [List.foldl_append, binVal_from]
  rfl

theorem natBits_length (n w : Nat) : (natBits n w).length = w := by
  induction w generalizing n with
  | zero => rfl
  | succ w ih => simp [natBits, ih]

theorem binVal_natBits (n w : Nat) : binVal (natBits n w) = n % 2 ^ w := by
  induction w generalizing n with
  | zero => simp [natBits, binVal, Nat.mod_one]
  | succ w ih =>
    rw [natBits, binVal_append, ih]
    have hm : n % 2 = 0 ∨ n % 2 = 1 := Nat.mod_two_eq_zero_or_one n
    have hb : binVal [if n % 2 = 1 then '1' else '0'] = n % 2 := by
      rcases hm with h | h <;> simp [h, binVal, bitVal]
    rw [hb]
    have : n % 2 ^ (w + 1) = n % 2 + 2 * (n / 2 % 2 ^ w) := by
      calc n % 2 ^ (w + 1) = n % (2 * 2 ^ w) := by ring_nf
        _ = n % 2 + 2 * (n / 2 % 2 ^ w) := Nat.mod_mul
    simp only [List.length_cons, List.length_nil]
    omega

theorem natBits_split (n w1 w2 : Nat) :
    natBits n (w1 + w2) = natBits (n / 2 ^ w2) w1 ++ natBits n w2 := by
  induction w2 generalizing n with
  | zero => simp [natBits]
  | succ w ih =>
    have h1 : w1 + (w + 1) = (w1 + w) + 1 := by omega
    rw [h1, natBits, ih (n / 2), natBits]
    have : n / 2 / 2 ^ w = n / 2 ^ (w + 1) := by
      rw [Nat.div_div_eq_div_mul, pow_succ, mul_comm 2 (2 ^ w), mul_comm]
    rw [this, List.append_assoc]

theorem drop_len_append {α : Type} (a b : List α) (k : Nat) (h : a.length = k) :
    (a ++ b).drop k = b := by
  subst h; exact List.drop_left a b

theorem take_len_append {α : Type} (a b : List α) (k : Nat) (h : a.length = k) :
    (a ++ b).take k = a := by
  subst h; exact List.take_left a b

theorem get_bits_eq (v : Int) (top bottom : Nat) (h1 : top ≤ 31) (h2 : bottom ≤ top) :
    get_bits v top bottom = natBits (toNat32 v / 2 ^ bottom) (top + 1 - bottom) := by
  unfold get_bits value_strb
  have e1 : (31 - top) + (top + 1) = 32 := by omega
  have hsplit := natBits_split (toNat32 v) (31 - top) (top + 1)
  rw [e1] at hsplit
  rw [hsplit, drop_len_append _ _ _ (natBits_length _ _)]
  have e3 : (32 - bottom) - (31 - top) = top + 1 - bottom := by omega
  have e2 : (top + 1 - bottom) + bottom = top + 1 := by omega
  have hsplit2 := natBits_split (toNat32 v) (top + 1 - bottom) bottom
  rw [e2] at hsplit2
  rw [e3, hsplit2, take_len_append _ _ _ (natBits_length _ _)]

theorem toNat32_lt (v : Int) : toNat32 v < 2 ^ 32 := by
  unfold toNat32
  have h1 : v % (2 ^ 32 : Int) < (2 ^ 32 : Int) :=
    Int.emod_lt_of_pos v (by norm_num)
  omega

theorem binVal_get_bits (v : Int) (top bottom : Nat) (h1 : top ≤ 31) (h2 : bottom ≤ top) :
    binVal (get_bits v top bottom) = toNat32 v / 2 ^ bottom % 2 ^ (top + 1 - bottom) := by
  rw [get_bits_eq v top bottom h1 h2, binVal_natBits]

theorem get_bits_length (v : Int) (top bottom : Nat) (h1 : top ≤ 31) (h2 : bottom ≤ top) :
    (get_bits v top bottom).length = top + 1 - bottom := by
  rw [get_bits_eq v top bottom h1 h2, natBits_length]

theorem toNat32_of_range (v : Int) (h0 : 0 ≤ v) (h1 : v < 2 ^ 32) :
    toNat32 v = v.toNat := by
  unfold toNat32
  rw [Int.emod_eq_of_lt h0 (by exact_mod_cast h1)]


/- Instances of `binVal_get_bits` and `get_bits_length` at the concrete bit
ranges used by the machine-code formats. -/

theorem gbv_6_0 (v : Int) : binVal (get_bits v 6 0) = toNat32 v / 1 % 128 := by
  rw [binVal_get_bits v 6 0 (by norm_num) (by norm_num)]; norm_num

theorem gbl_6_0 (v : Int) : (get_bits v 6 0).length = 7 := by
  rw [get_bits_length v 6 0 (by norm_num) (by norm_num)]

theorem gbv_4_0 (v : Int) : binVal (get_bits v 4 0) = toNat32 v / 1 % 32 := by
  rw [binVal_get_bits v 4 0 (by norm_num) (by norm_num)]; norm_num

theorem gbl_4_0 (v : Int) : (get_bits v 4 0).length = 5 := by
  rw [get_bits_length v 4 0 (by norm_num) (by norm_num)]

theorem gbv_2_0 (v : Int) : binVal (get_bits v 2 0) = toNat32 v / 1 % 8 := by
  rw [binVal_get_bits v 2 0 (by norm_num) (by norm_num)]; norm_num

theorem gbl_2_0 (v : Int) : (get_bits v 2 0).length = 3 := by
  rw [get_bits_length v 2 0 (by norm_num) (by norm_num)]

theorem gbv_11_0 (v : Int) : binVal (get_bits v 11 0) = toNat32 v / 1 % 4096 := by
  rw [binVal_get_bits v 11 0 (by norm_num) (by norm_num)]; norm_num

theorem gbl_11_0 (v : Int) : (get_bits v 11 0).length = 12 := by
  rw [get_bits_length v 11 0 (by norm_num) (by norm_num)]

theorem gbv_11_5 (v : Int) : binVal (get_bits v 11 5) = toNat32 v / 32 % 128 := by
  rw [binVal_get_bits v 11 5 (by norm_num) (by norm_num)]; norm_num

theorem gbl_11_5 (v : Int) : (get_bits v 11 5).length = 7 := by
  rw [get_bits_length v 11 5 (by norm_num) (by norm_num)]

theorem gbv_12_12 (v : Int) : binVal (get_bits v 12 12) = toNat32 v / 4096 % 2 := by
  rw [binVal_get_bits v 12 12 (by norm_num) (by norm_num)]; norm_num

theorem gbl_12_12 (v : Int) : (get_bits v 12 12).length = 1 := by
  rw [get_bits_length v 12 12 (by norm_num) (by norm_num)]

theorem gbv_10_5 (v : Int) : binVal (get_bits v 10 5) = toNat32 v / 32 % 64 := by
  rw [binVal_get_bits v 10 5 (by norm_num) (by norm_num)]; norm_num

theorem gbl_10_5 (v : Int) : (get_bits v 10 5).length = 6 := by
  rw [get_bits_length v 10 5 (by norm_num) (by norm_num)]

theorem gbv_4_1 (v : Int) : binVal (get_bits v 4 1) = toNat32 v / 2 % 16 := by
  rw [binVal_get_bits v 4 1 (by norm_num) (by norm_num)]; norm_num

theorem gbl_4_1 (v : Int) : (get_bits v 4 1).length = 4 := by
  rw [get_bits_length v 4 1 (by norm_num) (by norm_num)]

theorem gbv_11_11 (v : Int) : binVal (get_bits v 11 11) = toNat32 v / 2048 % 2 := by
  rw [binVal_get_bits v 11 11 (by norm_num) (by norm_num)]; norm_num

theorem gbl_11_11 (v : Int) : (get_bits v 11 11).length = 1 := by
  rw [get_bits_length v 11 11 (by norm_num) (by norm_num)]

theorem gbv_31_12 (v : Int) : binVal (get_bits v 31 12) = toNat32 v / 4096 % 1048576 := by
  rw [binVal_get_bits v 31 12 (by norm_num) (by norm_num)]; norm_num

theorem gbl_31_12 (v : Int) : (get_bits v 31 12).length = 20 := by
  rw [get_bits_length v 31 12 (by norm_num) (by norm_num)]

theorem gbv_20_20 (v : Int) : binVal (get_bits v 20 20) = toNat32 v / 1048576 % 2 := by
  rw [binVal_get_bits v 20 20 (by norm_num) (by norm_num)]; norm_num

theorem gbl_20_20 (v : Int) : (get_bits v 20 20).length = 1 := by
  rw [get_bits_length v 20 20 (by norm_num) (by norm_num)]

theorem gbv_10_1 (v : Int) : binVal (get_bits v 10 1) = toNat32 v / 2 % 1024 := by
  rw [binVal_get_bits v 10 1 (by norm_num) (by norm_num)]; norm_num

theorem gbl_10_1 (v : Int) : (get_bits v 10 1).length = 10 := by
  rw [get_bits_length v 10 1 (by norm_num) (by norm_num)]

theorem gbv_19_12 (v : Int) : binVal (get_bits v 19 12) = toNat32 v / 4096 % 256 := by
  rw [binVal_get_bits v 19 12 (by norm_num) (by norm_num)]; norm_num

theorem gbl_19_12 (v : Int) : (get_bits v 19 12).length = 8 := by
  rw [get_bits_length v 19 12 (by norm_num) (by norm_num)]

set_option maxHeartbeats 2000000 in
/-- Central fact shared by the format claims: on in-range operands, a
well-formed instruction compiles exactly to the word prescribed by the spec
concatenation. -/
theorem compile_eq_spec (i : Inst) (hw : i.WF) (rd rs1 rs2 imm : Int)
    (hrd : 0 ≤ rd ∧ rd ≤ 31) (hrs1 : 0 ≤ rs1 ∧ rs1 ≤ 31)
    (hrs2 : 0 ≤ rs2 ∧ rs2 ≤ 31)
    (him : -2147483648 ≤ imm ∧ imm ≤ 2147483647) :
    i.compile (.inl rd) (.inl rs1) (.inl rs2) (.inl imm) =
      .ok ((spec_word i rd rs1 rs2 imm : Nat) : Int) := by
  obtain ⟨t, op, f3, f7⟩ := i
  simp only [Inst.WF] at hw
  obtain ⟨ht1, ht2, hop0, hop1, h30, h31, h70, h71⟩ := hw
  have eop : toNat32 op = op.toNat := toNat32_of_range _ hop0 (by omega)
  have ef3 : toNat32 f3 = f3.toNat := toNat32_of_range _ h30 (by omega)
  have ef7 : toNat32 f7 = f7.toNat := toNat32_of_range _ h70 (by omega)
  have erd : toNat32 rd = rd.toNat := toNat32_of_range _ hrd.1 (by omega)
  have ers1 : toNat32 rs1 = rs1.toNat := toNat32_of_range _ hrs1.1 (by omega)
  have ers2 : toNat32 rs2 = rs2.toNat := toNat32_of_range _ hrs2.1 (by omega)
  have key : binVal (Inst.mc ⟨t, op, f3, f7⟩ rd rs1 rs2 imm) =
      spec_word ⟨t, op, f3, f7⟩ rd rs1 rs2 imm := by
    interval_cases t <;>
      (simp only [Inst.mc, spec_word, specSlice, binVal_append, List.length_append,
        gbv_6_0, gbv_4_0, gbv_2_0, gbv_11_0, gbv_11_5, gbv_12_12, gbv_10_5,
        gbv_4_1, gbv_11_11, gbv_31_12, gbv_20_20, gbv_10_1, gbv_19_12,
        gbl_6_0, gbl_4_0, gbl_2_0, gbl_11_0, gbl_11_5, gbl_12_12, gbl_10_5,
        gbl_4_1, gbl_11_11, gbl_31_12, gbl_20_20, gbl_10_1, gbl_19_12]
       norm_num
       omega)
  simp only [Inst.compile]
  rw [if_neg (by omega), if_neg (by omega), if_neg (by omega), if_neg (by omega), key]


/- Instances of `binVal_get_bits` at the decode-side bit ranges. -/

theorem gbv_11_7 (v : Int) : binVal (get_bits v 11 7) = toNat32 v / 128 % 32 := by
  rw [binVal_get_bits v 11 7 (by norm_num) (by norm_num)]; norm_num

theorem gbv_19_15 (v : Int) : binVal (get_bits v 19 15) = toNat32 v / 32768 % 32 := by
  rw [binVal_get_bits v 19 15 (by norm_num) (by norm_num)]; norm_num

theorem gbv_24_20 (v : Int) : binVal (get_bits v 24 20) = toNat32 v / 1048576 % 32 := by
  rw [binVal_get_bits v 24 20 (by norm_num) (by norm_num)]; norm_num

theorem gbv_31_20 (v : Int) : binVal (get_bits v 31 20) = toNat32 v / 1048576 % 4096 := by
  rw [binVal_get_bits v 31 20 (by norm_num) (by norm_num)]; norm_num

theorem gbv_31_25 (v : Int) : binVal (get_bits v 31 25) = toNat32 v / 33554432 % 128 := by
  rw [binVal_get_bits v 31 25 (by norm_num) (by norm_num)]; norm_num

theorem gbv_31_31 (v : Int) : binVal (get_bits v 31 31) = toNat32 v / 2147483648 % 2 := by
  rw [binVal_get_bits v 31 31 (by norm_num) (by norm_num)]; norm_num

theorem gbv_30_25 (v : Int) : binVal (get_bits v 30 25) = toNat32 v / 33554432 % 64 := by
  rw [binVal_get_bits v 30 25 (by norm_num) (by norm_num)]; norm_num

theorem gbv_11_8 (v : Int) : binVal (get_bits v 11 8) = toNat32 v / 256 % 16 := by
  rw [binVal_get_bits v 11 8 (by norm_num) (by norm_num)]; norm_num

theorem gbv_7_7 (v : Int) : binVal (get_bits v 7 7) = toNat32 v / 128 % 2 := by
  rw [binVal_get_bits v 7 7 (by norm_num) (by norm_num)]; norm_num

theorem gbv_30_21 (v : Int) : binVal (get_bits v 30 21) = toNat32 v / 2097152 % 1024 := by
  rw [binVal_get_bits v 30 21 (by norm_num) (by norm_num)]; norm_num

theorem toNat32_natCast (n : Nat) : toNat32 (n : Int) = n % 2 ^ 32 := by
  unfold toNat32
  omega

theorem insts_wf : ∀ p ∈ insts, Inst.WF p.2 := by decide

theorem toNat32_natCast_lt (n : Nat) (h : n < 2 ^ 32) : toNat32 (n : Int) = n := by
  rw [toNat32_natCast]
  omega

set_option maxHeartbeats 1000000 in
theorem spec_word_lt (i : Inst) (hw : i.WF) (rd rs1 rs2 imm : Int)
    (hrd : 0 ≤ rd ∧ rd ≤ 31) (hrs1 : 0 ≤ rs1 ∧ rs1 ≤ 31)
    (hrs2 : 0 ≤ rs2 ∧ rs2 ≤ 31) :
    spec_word i rd rs1 rs2 imm < 2 ^ 32 := by
  obtain ⟨t, op, f3, f7⟩ := i
  simp only [Inst.WF] at hw
  obtain ⟨ht1, ht2, hop0, hop1, h30, h31, h70, h71⟩ := hw
  have hi32 := toNat32_lt imm
  interval_cases t <;>
    (simp only [spec_word, specSlice]
     norm_num
     omega)

theorem fieldFits_range (t : Nat) (imm : Int) (h : fieldFits t imm) :
    -2147483648 ≤ imm ∧ imm ≤ 2147483647 := by
  unfold fieldFits at h
  split at h <;> omega

set_option maxHeartbeats 2000000 in
/-- C3: round-trip: for every base instruction in the catalog and valid
operands with an immediate fitting the format field, slicing the encoded
word at the bit ranges the format assigns to each populated operand recovers
the original rd, rs1, rs2 and immediate field values. -/
theorem c3_roundtrip (name : List Char) (i : Inst) (hmem : (name, i) ∈ insts)
    (rd rs1 rs2 imm : Int)
    (hrd : 0 ≤ rd ∧ rd ≤ 31) (hrs1 : 0 ≤ rs1 ∧ rs1 ≤ 31)
    (hrs2 : 0 ≤ rs2 ∧ rs2 ≤ 31) (him : fieldFits i.type imm) :
    ∃ w : Int, i.compile (.inl rd) (.inl rs1) (.inl rs2) (.inl imm) = .ok w ∧
      decode_fields i rd rs1 rs2 imm w := by
  have hw := insts_wf _ hmem
  have him32 := fieldFits_range _ _ him
  obtain ⟨t, op, f3, f7⟩ := i
  have hcomp := compile_eq_spec ⟨t, op, f3, f7⟩ hw rd rs1 rs2 imm hrd hrs1 hrs2 him32
  refine ⟨_, hcomp, ?_⟩
  have hWlt := spec_word_lt ⟨t, op, f3, f7⟩ hw rd rs1 rs2 imm hrd hrs1 hrs2
  simp only [Inst.WF] at hw
  obtain ⟨ht1, ht2, hop0, hop1, h30, h31, h70, h71⟩ := hw
  have hi32 := toNat32_lt imm
  obtain ⟨rdn, rfl⟩ := Int.eq_ofNat_of_zero_le hrd.1
  obtain ⟨rs1n, rfl⟩ := Int.eq_ofNat_of_zero_le hrs1.1
  obtain ⟨rs2n, rfl⟩ := Int.eq_ofNat_of_zero_le hrs2.1
  obtain ⟨opn, rfl⟩ := Int.eq_ofNat_of_zero_le hop0
  obtain ⟨f3n, rfl⟩ := Int.eq_ofNat_of_zero_le h30
  obtain ⟨f7n, rfl⟩ := Int.eq_ofNat_of_zero_le h70
  have hrdn : rdn ≤ 31 := by omega
  have hrs1n : rs1n ≤ 31 := by omega
  have hrs2n : rs2n ≤ 31 := by omega
  have hopn : opn ≤ 127 := by omega
  have hf3n : f3n ≤ 7 := by omega
  have hf7n : f7n ≤ 127 := by omega
  clear hrd hrs1 hrs2 hop0 hop1 h30 h31 h70 h71 him him32 hcomp
  interval_cases t
  · simp only [decode_fields,
       gbv_11_7, gbv_19_15, gbv_24_20, gbv_31_20, gbv_31_25, gbv_31_31,
       gbv_30_25, gbv_11_8, gbv_7_7, gbv_30_21, gbv_31_12, gbv_20_20,
       gbv_19_12]
    rw [toNat32_natCast_lt _ hWlt]
    simp only [spec_word, specSlice, Int.toNat_natCast]
    norm_num
    omega
  · simp only [decode_fields,
       gbv_11_7, gbv_19_15, gbv_24_20, gbv_31_20, gbv_31_25, gbv_31_31,
       gbv_30_25, gbv_11_8, gbv_7_7, gbv_30_21, gbv_31_12, gbv_20_20,
       gbv_19_12]
    rw [toNat32_natCast_lt _ hWlt]
    simp only [spec_word, specSlice, Int.toNat_natCast]
    norm_num
    generalize hs1 : toNat32 imm % 4096 = s1
    have hbs1 : s1 < 4096 := by omega
    clear hs1
    omega
  · simp only [decode_fields,
       gbv_11_7, gbv_19_15, gbv_24_20, gbv_31_20, gbv_31_25, gbv_31_31,
       gbv_30_25, gbv_11_8, gbv_7_7, gbv_30_21, gbv_31_12, gbv_20_20,
       gbv_19_12]
    rw [toNat32_natCast_lt _ hWlt]
    simp only [spec_word, specSlice, Int.toNat_natCast]
    norm_num
    generalize hs1 : toNat32 imm / 32 % 128 = s1
    have hbs1 : s1 < 128 := by omega
    clear hs1
    generalize hs2 : toNat32 imm % 32 = s2
    have hbs2 : s2 < 32 := by omega
    clear hs2
    omega
  · simp only [decode_fields,
       gbv_11_7, gbv_19_15, gbv_24_20, gbv_31_20, gbv_31_25, gbv_31_31,
       gbv_30_25, gbv_11_8, gbv_7_7, gbv_30_21, gbv_31_12, gbv_20_20,
       gbv_19_12]
    rw [toNat32_natCast_lt _ hWlt]
    simp only [spec_word, specSlice, Int.toNat_natCast]
    norm_num
    generalize hs1 : toNat32 imm / 4096 % 2 = s1
    have hbs1 : s1 < 2 := by omega
    clear hs1
    generalize hs2 : toNat32 imm / 32 % 64 = s2
    have hbs2 : s2 < 64 := by omega
    clear hs2
    generalize hs3 : toNat32 imm / 2 % 16 = s3
    have hbs3 : s3 < 16 := by omega
    clear hs3
    generalize hs4 : toNat32 imm / 2048 % 2 = s4
    have hbs4 : s4 < 2 := by omega
    clear hs4
    omega
  · simp only [decode_fields,
       gbv_11_7, gbv_19_15, gbv_24_20, gbv_31_20, gbv_31_25, gbv_31_31,
       gbv_30_25, gbv_11_8, gbv_7_7, gbv_30_21, gbv_31_12, gbv_20_20,
       gbv_19_12]
    rw [toNat32_natCast_lt _ hWlt]
    simp only [spec_word, specSlice, Int.toNat_natCast]
    norm_num
    generalize hs1 : toNat32 imm / 4096 % 1048576 = s1
    have hbs1 : s1 < 1048576 := by omega
    clear hs1
    omega
  · simp only [decode_fields,
       gbv_11_7, gbv_19_15, gbv_24_20, gbv_31_20, gbv_31_25, gbv_31_31,
       gbv_30_25, gbv_11_8, gbv_7_7, gbv_30_21, gbv_31_12, gbv_20_20,
       gbv_19_12]
    rw [toNat32_natCast_lt _ hWlt]
    simp only [spec_word, specSlice, Int.toNat_natCast]
    norm_num
    generalize hs1 : toNat32 imm / 1048576 % 2 = s1
    have hbs1 : s1 < 2 := by omega
    clear hs1
    generalize hs2 : toNat32 imm / 2 % 1024 = s2
    have hbs2 : s2 < 1024 := by omega
    clear hs2
    generalize hs3 : toNat32 imm / 2048 % 2 = s3
    have hbs3 : s3 < 2 := by omega
    clear hs3
    generalize hs4 : toNat32 imm / 4096 % 256 = s4
    have hbs4 : s4 < 256 := by omega
    clear hs4
    omega

/-- C1: for every instruction definition (validated as by `Inst.__init__`)
and every valid operand tuple (rd, rs1, rs2 in 0..31, imm a signed 32-bit
integer), `Inst.compile` produces the 32-bit word whose bits, most
significant first, are the concatenation prescribed for its format
(`spec_word`), where imm[i:j] are the bits of the immediate's 32-bit
two's-complement representation. -/
theorem c1_compile_matches_format (i : Inst) (hw : i.WF) (rd rs1 rs2 imm : Int)
    (hrd : 0 ≤ rd ∧ rd ≤ 31) (hrs1 : 0 ≤ rs1 ∧ rs1 ≤ 31)
    (hrs2 : 0 ≤ rs2 ∧ rs2 ≤ 31)
    (him : -2147483648 ≤ imm ∧ imm ≤ 2147483647) :
    i.compile (.inl rd) (.inl rs1) (.inl rs2) (.inl imm) =
      .ok ((spec_word i rd rs1 rs2 imm : Nat) : Int) :=
  compile_eq_spec i hw rd rs1 rs2 imm hrd hrs1 hrs2 him

/-- Witness for C1: the I-type definition of addi at rd=5, rs1=0, rs2=0,
imm=5 satisfies the hypotheses and compiles to the prescribed word. -/
theorem c1_compile_matches_format_witness :
    Inst.WF ⟨2, 19, 0, 0⟩ ∧
      Inst.compile ⟨2, 19, 0, 0⟩ (.inl 5) (.inl 0) (.inl 0) (.inl 5) =
        .ok 5243539 := by
  refine ⟨by decide, ?_⟩
  rw [c1_compile_matches_format ⟨2, 19, 0, 0⟩ (by decide) 5 0 0 5
    (by norm_num) (by norm_num) (by norm_num) (by norm_num)]
  decide

/-- C3 witness: the catalog's add instruction at rd=1, rs1=2, rs2=3, imm=0
satisfies the hypotheses; the encoded word's slices recover the operands. -/
theorem c3_roundtrip_witness :
    (("add".toList, (⟨1, 51, 0, 0⟩ : Inst)) ∈ insts) ∧
      (∃ w : Int,
        Inst.compile ⟨1, 51, 0, 0⟩ (.inl 1) (.inl 2) (.inl 3) (.inl 0) = .ok w ∧
        decode_fields ⟨1, 51, 0, 0⟩ 1 2 3 0 w) := by
  refine ⟨by decide, ?_⟩
  exact c3_roundtrip ("add".toList) ⟨1, 51, 0, 0⟩ (by decide) 1 2 3 0
    (by norm_num) (by norm_num) (by norm_num)
    (by unfold fieldFits; norm_num)

set_option maxRecDepth 8192 in
/-- C4: the claim asserts I-type immediates 2048 and -2049 are rejected
with an immediate-out-of-range error; the code has no per-format immediate
check (`Inst.compile` only rejects values outside the signed 32-bit range)
and silently packs the low 12 bits: 2047, 2048, -2048 and -2049 all
succeed, with 2048 encoding like -2048 and -2049 encoding like 2047. -/
theorem c4_itype_no_range_check :
    insts.lookup ("addi".toList) = some ⟨2, 19, 0, 0⟩ ∧
    Inst.compile ⟨2, 19, 0, 0⟩ (.inl 0) (.inl 0) (.inl 0) (.inl 2047) =
      .ok 0x7FF00013 ∧
    Inst.compile ⟨2, 19, 0, 0⟩ (.inl 0) (.inl 0) (.inl 0) (.inl (-2048)) =
      .ok 0x80000013 ∧
    Inst.compile ⟨2, 19, 0, 0⟩ (.inl 0) (.inl 0) (.inl 0) (.inl 2048) =
      .ok 0x80000013 ∧
    Inst.compile ⟨2, 19, 0, 0⟩ (.inl 0) (.inl 0) (.inl 0) (.inl (-2049)) =
      .ok 0x7FF00013 := by
  refine ⟨by decide, by decide, by decide, by decide, by decide⟩

/-- C10: srai and srli are both I-type with opcode 19 and funct3 5 and
differ only in their declared funct7 (0b0100000 vs 0), which the I-type
machine-code format never packs, so they compile to identical words for all
valid operands; slli's declared funct7 is likewise never packed (replacing
it changes nothing). -/
theorem c10_srai_srli_identical (rd rs1 rs2 imm : Int)
    (hrd : 0 ≤ rd ∧ rd ≤ 31) (hrs1 : 0 ≤ rs1 ∧ rs1 ≤ 31)
    (hrs2 : 0 ≤ rs2 ∧ rs2 ≤ 31)
    (him : -2147483648 ≤ imm ∧ imm ≤ 2147483647) :
    insts.lookup ("srai".toList) = some ⟨2, 19, 5, 32⟩ ∧
    insts.lookup ("srli".toList) = some ⟨2, 19, 5, 0⟩ ∧
    insts.lookup ("slli".toList) = some ⟨2, 19, 1, 0⟩ ∧
    Inst.compile ⟨2, 19, 5, 32⟩ (.inl rd) (.inl rs1) (.inl rs2) (.inl imm) =
      Inst.compile ⟨2, 19, 5, 0⟩ (.inl rd) (.inl rs1) (.inl rs2) (.inl imm) ∧
    ∀ f7 : Int,
      Inst.compile ⟨2, 19, 1, f7⟩ (.inl rd) (.inl rs1) (.inl rs2) (.inl imm) =
        Inst.compile ⟨2, 19, 1, 0⟩ (.inl rd) (.inl rs1) (.inl rs2) (.inl imm) :=
  ⟨by decide, by decide, by decide, rfl, fun _ => rfl⟩

/-- Witness for C10: at rd=1, rs1=2, rs2=0, imm=5 the hypotheses hold and
the srai and srli words coincide. -/
theorem c10_srai_srli_identical_witness :
    ((0 : Int) ≤ 1 ∧ (1 : Int) ≤ 31) ∧
      Inst.compile ⟨2, 19, 5, 32⟩ (.inl 1) (.inl 2) (.inl 0) (.inl 5) =
        Inst.compile ⟨2, 19, 5, 0⟩ (.inl 1) (.inl 2) (.inl 0) (.inl 5) :=
  ⟨by norm_num,
    (c10_srai_srli_identical 1 2 0 5 (by norm_num) (by norm_num)
      (by norm_num) (by norm_num)).2.2.2.1⟩

set_option maxRecDepth 8192 in
/-- C2: compiling the line `add a0, zero, zero` yields the word 0x00000533,
whose binary rendering is the 32-character string
00000000000000000000010100110011 and whose hex rendering is the 8-character
lowercase string 00000533. -/
theorem c2_add_a0_zero_zero :
    compile_line ("add a0, zero, zero".toList) 0 = .ok 0x00000533 ∧
    value_strb 0x00000533 = "00000000000000000000010100110011".toList ∧
    value_strh 0x00000533 = "00000533".toList := by
  refine ⟨by decide, by decide, by decide⟩

set_option maxRecDepth 8192 in
/-- C5: the claim asserts `li t0, 5` compiles to the same word as
`addi t0, x0, 5`; in the code the pseudo-instruction branch of
`compile_line` is the stub `pass`, so `li` falls through to the
`insts["li"]` dictionary access and raises KeyError, while the real
instruction compiles to 0x00500293. -/
theorem c5_li_keyerror :
    compile_line ("li t0, 5".toList) 0 = .error ("KeyError: li".toList) ∧
    compile_line ("addi t0, x0, 5".toList) 0 = .ok 0x00500293 := by
  refine ⟨by decide, by decide⟩

/-- C7: the claim asserts signed decimal operands and bare label names are
accepted; in the code `convert_param` tests `param.isdigit()`, which is
false for "-1", and then requires a trailing colon, so both "-1" and a bare
label name "loop" raise `ValueError(f"Invalid parameter: {param}")`;
unsigned "5" is accepted. -/
theorem c7_signed_imm_and_bare_label_rejected :
    convert_token ("-1".toList) = .error ("Invalid parameter: -1".toList) ∧
    convert_token ("5".toList) = .ok (.inl 5) ∧
    convert_token ("loop".toList) =
      .error ("Invalid parameter: loop".toList) := by
  refine ⟨by decide, by decide, by decide⟩

set_option maxRecDepth 8192 in
/-- C9: the claim asserts that `foo a0, a1` on source line 3 fails with an
error referencing line 3.  `compile_line` does raise
`Invalid instruction: foo in line pc // 4 + 1`, but `Compiler.compile`
crashes with AttributeError on `asm.readlines().split("\n")` for every
input before compiling any line, and it calls `compile_line(line)` without
a pc, so a directly compiled line always reports line 1; only pc = 8 would
report line 3. -/
theorem c9_unknown_mnemonic_line_number :
    compile_line ("foo a0, a1".toList) 0 =
      .error ("Invalid instruction: foo in line 1".toList) ∧
    compile ("add a0, a1, a2\nadd a0, a1, a2\nfoo a0, a1".toList) =
      .error ("AttributeError: list object has no attribute split".toList) ∧
    compile_line ("foo a0, a1".toList) 8 =
      .error ("Invalid instruction: foo in line 3".toList) := by
  refine ⟨by decide, by decide, by decide⟩

theorem lookup_eq_none_of_ne (l : List (List Char × Int)) (k : List Char)
    (h : ∀ p ∈ l, p.1 ≠ k) : l.lookup k = none := by
  induction l with
  | nil => rfl
  | cons a tl ih =>
    obtain ⟨a1, a2⟩ := a
    rw [List.lookup_cons]
    have hne : (k == a1) = false := by
      have := h (a1, a2) (List.mem_cons_self _ _)
      simp only [beq_eq_false_iff_ne, ne_eq]
      intro hk
      exact this (by simp [hk])
    rw [hne]
    exact ih fun p hp => h p (List.mem_cons_of_mem _ hp)

/-- No register alias starts with the character x, so the alias lookup on a
token of the form `x<digits>` always misses. -/
theorem regs_lookup_x_none (ds : List Char) : regs.lookup ('x' :: ds) = none := by
  refine lookup_eq_none_of_ne _ _ ?_
  intro p hp
  fin_cases hp <;>
    (intro h; injection h with h1 h2; exact absurd h1 (by decide))

/-- C8: every register alias in the table resolves to its canonical index,
and a token `x<N>` resolves to N when 0 ≤ N ≤ 31 and raises
`Invalid parameter` when N > 31. -/
theorem c8_register_resolution :
    (∀ p ∈ regs, convert_token p.1 = .ok (.inl p.2)) ∧
    (∀ ds : List Char, ds ≠ [] → ds.all Char.isDigit = true →
      (parseDigits ds ≤ 31 →
        convert_token ('x' :: ds) = .ok (.inl (parseDigits ds))) ∧
      (31 < parseDigits ds →
        convert_token ('x' :: ds) =
          .error (("Invalid parameter: ".toList) ++ 'x' :: ds))) := by
  refine ⟨by decide, ?_⟩
  intro ds hne hdig
  constructor <;> intro hn <;>
    simp only [convert_token, regs_lookup_x_none]
  · rw [if_pos (by simp [hne, hdig]), if_neg (by omega)]
  · rw [if_pos (by simp [hne, hdig]), if_pos (by right; omega)]

/-- Witness for C8: the alias zero resolves to 0 and the token x31
resolves to 31. -/
theorem c8_register_resolution_witness :
    (("zero".toList, (0 : Int)) ∈ regs) ∧
    convert_token ("zero".toList) = .ok (.inl 0) ∧
    convert_token ('x' :: "31".toList) = .ok (.inl 31) := by
  refine ⟨by decide, ?_, ?_⟩
  · exact c8_register_resolution.1 ("zero".toList, 0) (by decide)
  · exact (c8_register_resolution.2 ("31".toList) (by decide) (by decide)).1
      (by decide)

theorem pySplitStep_cons (sep c : Char) (x : List Char) (xs : List (List Char)) :
    pySplitStep sep c (x :: xs) =
      if c = sep then [] :: x :: xs else (c :: x) :: xs := rfl

theorem pySplit_ne_nil (sep : Char) (s : List Char) : pySplit sep s ≠ [] := by
  induction s with
  | nil => simp [pySplit]
  | cons c rest ih =>
    rw [pySplit]
    rcases hr : pySplit sep rest with _ | ⟨x, xs⟩
    · exact absurd hr ih
    · rw [pySplitStep_cons]
      split <;> simp

theorem pySplit_not_mem {sep : Char} {s : List Char} (h : sep ∉ s) :
    pySplit sep s = [s] := by
  induction s with
  | nil => rfl
  | cons c rest ih =>
    have hc : c ≠ sep := fun he => h (by simp [he])
    have hr : sep ∉ rest := fun hm => h (List.mem_cons_of_mem _ hm)
    rw [pySplit, ih hr, pySplitStep_cons, if_neg hc]

theorem pySplit_append_cons {sep : Char} {a : List Char} (b : List Char)
    (h : sep ∉ a) : pySplit sep (a ++ sep :: b) = a :: pySplit sep b := by
  induction a with
  | nil =>
    rw [List.nil_append, pySplit]
    rcases hb : pySplit sep b with _ | ⟨x, xs⟩
    · exact absurd hb (pySplit_ne_nil sep b)
    · rw [pySplitStep_cons, if_pos rfl]
  | cons c rest ih =>
    have hc : c ≠ sep := fun he => h (by simp [he])
    have hr : sep ∉ rest := fun hm => h (List.mem_cons_of_mem _ hm)
    rw [List.cons_append, pySplit, ih hr, pySplitStep_cons, if_neg hc]

theorem pySplit_flatten (sep : Char) (s : List Char) :
    (pySplit sep s).flatten = s.filter (fun c => decide (c ≠ sep)) := by
  induction s with
  | nil => rfl
  | cons c rest ih =>
    rw [pySplit]
    rcases hr : pySplit sep rest with _ | ⟨x, xs⟩
    · exact absurd hr (pySplit_ne_nil sep rest)
    · rw [hr] at ih
      rw [pySplitStep_cons, List.filter_cons]
      by_cases hc : c = sep
      · rw [if_pos hc]
        simp only [List.flatten_cons, List.nil_append, ih]
        simp [hc]
      · rw [if_neg hc]
        simp only [List.flatten_cons, List.cons_append, ← ih]
        simp [hc]

set_option maxRecDepth 8192 in
/-- C6 counterexample: for `lw a0, 4(sp)` the parser produces the operand
tuple (a0, sp, 4): the base register replaces the last operand and the
offset 4 is appended last, so the register precedes the offset, not the
other way round. -/
theorem c6_offset_after_register_counterexample :
    get_line_params ("lw a0, 4(sp)".toList) =
      ("lw".toList, ["a0".toList, "sp".toList, "4".toList]) ∧
    get_line_params ("lw a0, 4(sp)".toList) ≠
      ("lw".toList, ["a0".toList, "4".toList, "sp".toList]) := by
  refine ⟨by decide, by decide⟩

/-- C6 amended: for a line `mn p1, ..., pk, imm(reg)` whose last
comma-separated operand has the form imm(reg), the parser keeps the operand
position for the base register reg and appends the offset imm as a new
final operand, so reg appears before imm in the returned tuple. -/
theorem c6_offset_base_amended (mn body immTok regTok : List Char)
    (ps : List (List Char))
    (h1 : pyStrip (mn ++ ' ' :: body) = mn ++ ' ' :: body)
    (h2 : '#' ∉ mn ++ ' ' :: body)
    (h3 : ' ' ∉ mn)
    (h4 : pySplit ',' (body.filter (fun c => decide (c ≠ ' '))) =
        ps ++ [immTok ++ '(' :: (regTok ++ [')'])])
    (h5 : '(' ∉ immTok) (h6 : '(' ∉ regTok) (h7 : ')' ∉ regTok) :
    get_line_params (mn ++ ' ' :: body) = (mn, ps ++ [regTok, immTok]) := by
  simp only [get_line_params, h1, pySplit_not_mem h2, List.headI]
  rw [pySplit_append_cons body h3]
  simp only [List.headI, List.tail_cons]
  rw [pySplit_flatten, List.filter_filter]
  simp only [Bool.and_self]
  rw [h4, List.getLastD_concat]
  rw [if_pos (by simp)]
  rw [pySplit_append_cons (regTok ++ [')']) h5]
  rw [pySplit_not_mem (show '(' ∉ regTok ++ [')'] by simp [h6])]
  simp only [List.getD, List.get?, List.headI, List.dropLast_concat,
    Option.getD_some]
  rw [List.filter_append]
  rw [List.filter_eq_self.mpr (fun c hc => by simp; exact fun he => h7 (he ▸ hc))]
  simp

set_option maxRecDepth 8192 in
/-- Witness for the amended C6 at the line `lw a0, 4(sp)`. -/
theorem c6_offset_base_amended_witness :
    get_line_params ("lw".toList ++ ' ' :: "a0, 4(sp)".toList) =
      ("lw".toList, ["a0".toList] ++ ["sp".toList, "4".toList]) :=
  c6_offset_base_amended ("lw".toList) ("a0, 4(sp)".toList) ("4".toList)
    ("sp".toList) ["a0".toList] (by decide) (by decide) (by decide)
    (by decide) (by decide) (by decide) (by decide)

end RiscvComp
